import Mathlib

/-!
Verification development for the AnimationData module
(src/animation-data/AnimationData.ts and its interface files).

The module is shallow-embedded: the class state becomes the structure
`AnimationData`, every method becomes a pure Lean function that takes the
state (and, for I/O-performing methods, the injected `FileReader`) and
returns its result together with the updated state.  The Content Accessor
(`FileReader.interface.ts`) together with `fetchAndParseJSON<T>` is
modelled as a record of typed functions from relative paths to
`Option`-valued parsed documents: `none` covers both a failed read
(`readFileAsText` returning `undefined`) and a failed `JSON.parse`,
exactly the two cases the source collapses to `undefined`.
`readFileWithTimeout` is defined but never called in the source, so it is
not modelled.  JavaScript `Map`s are modelled as insertion-ordered
association lists with the JS `Map.set` semantics (overwrite in place,
append when fresh); plain-object batches are modelled as their
`Object.entries` lists.  TS `number` is modelled as `ℚ` (exact
arithmetic).  `Promise.all` over `loadStatisticsFile` is modelled as a
sequential fold: each call targets the cache slot keyed by its own file
path and the reader is a deterministic function, so the final cache
contents coincide with the sequential order.
-/

set_option maxHeartbeats 1000000

/-- A single point of an entity path (interfaces/entityPath.types). -/
inductive AttrValue where
  | str : String → AttrValue
  | num : ℚ → AttrValue
  | boolean : Bool → AttrValue
  deriving DecidableEq

/-- `PathPoint` from the entity-path interface file. -/
structure PathPoint where
  clock : ℚ
  x : ℚ
  y : ℚ
  event : Option String
  state : String
  componentId : Option String
  attributes : Option (List (String × AttrValue))
  deriving DecidableEq

/-- `EntityPath`: a typed, time-ordered movement path for one entity. -/
structure EntityPath where
  type : String
  path : List PathPoint
  deriving DecidableEq

/-- `EntityPathBatch`: one batch file's mapping from entity id to path,
in `Object.entries` iteration order. -/
abbrev EntityPathBatch := List (String × EntityPath)

/-- One sample of a statistics time series. -/
structure StatisticsTimeSeriesPoint where
  time : ℚ
  value : ℚ
  deriving DecidableEq

/-- Precomputed summary block of a statistics file. -/
structure StatisticsSummary where
  min : ℚ
  max : ℚ
  mean : ℚ
  median : ℚ
  stdDev : ℚ
  count : ℚ
  deriving DecidableEq

/-- Metadata block of a statistics file (statistics.types.ts). -/
structure StatisticsMetadata where
  type : String
  componentId : Option String
  metricName : String
  simulationId : String
  replication : Int
  timeStart : ℚ
  timeEnd : ℚ
  timeUnit : String
  deriving DecidableEq

/-- A fully loaded statistics file. -/
structure StatisticsFile where
  metadata : StatisticsMetadata
  summary : StatisticsSummary
  timeSeries : List StatisticsTimeSeriesPoint
  deriving DecidableEq

/-- Manifest pointer to one statistics data file. -/
structure StatisticsDataFileInfo where
  type : String
  componentId : Option String
  metricName : String
  filePath : String
  timeStart : Option ℚ
  timeEnd : Option ℚ
  deriving DecidableEq

/-- Manifest pointer to one entity-path batch file. -/
structure EntityPathDataFileInfo where
  filePath : String
  entryTimeStart : ℚ
  entryTimeEnd : ℚ
  entityCount : Option Nat
  deriving DecidableEq

/-- Metadata block of a replication manifest (manifest.types.ts). -/
structure ReplicationManifestMetadata where
  formatVersion : String
  simulationId : String
  replication : Int
  name : Option String
  duration : ℚ
  timeUnit : String
  modelLayoutPath : String
  sharedVisualConfigPath : String
  backgroundSvgPath : String
  deriving DecidableEq

/-- A replication manifest. -/
structure ReplicationManifestData where
  metadata : ReplicationManifestMetadata
  entityPathDataFiles : List EntityPathDataFileInfo
  statisticsDataFiles : List StatisticsDataFileInfo
  deriving DecidableEq

/-- Shared model-layout document; the core treats it as an object it never
inspects beyond storing it, so only an identifying field is modelled. -/
structure ModelLayout where
  simulationId : String
  deriving DecidableEq

/-- Shared visual-config document with its declared fields. -/
structure SharedVisualConfig where
  theme : String
  loop : Bool
  speedMultiplier : ℚ
  deriving DecidableEq

/-- One entry of a directory listing (FileReader.interface.ts). -/
structure FileListItem where
  name : String
  path : String
  isDirectory : Bool
  deriving DecidableEq

/-- The Content Accessor plus JSON parsing, typed per call-site of
`fetchAndParseJSON<T>`: each field maps a relative path to the parsed
document of the type the corresponding call expects, `none` standing for
a read failure or a parse failure. -/
structure FileReader where
  listDirectoryContents : String → Option (List FileListItem)
  manifestAt : String → Option ReplicationManifestData
  layoutAt : String → Option ModelLayout
  visualConfigAt : String → Option SharedVisualConfig
  entityBatchAt : String → Option EntityPathBatch
  statisticsAt : String → Option StatisticsFile

/-- JS `Map.get` on an insertion-ordered association list. -/
def mapGet {α β : Type} [DecidableEq α] (k : α) : List (α × β) → Option β
  | [] => none
  | kv :: rest => if kv.1 = k then some kv.2 else mapGet k rest

/-- JS `Map.has`. -/
def mapHas {α β : Type} [DecidableEq α] (k : α) (l : List (α × β)) : Bool :=
  (mapGet k l).isSome

/-- JS `Map.set`: overwrite in place when the key exists, append otherwise. -/
def mapSet {α β : Type} [DecidableEq α] (k : α) (v : β) : List (α × β) → List (α × β)
  | [] => [(k, v)]
  | kv :: rest => if kv.1 = k then (k, v) :: rest else kv :: mapSet k v rest

/-- The mutable state of one `AnimationData` instance. -/
structure AnimationData where
  availableReplications : List (Int × ReplicationManifestData)
  modelLayout : Option ModelLayout
  sharedVisualConfig : Option SharedVisualConfig
  activeReplicationId : Option Int
  loadedEntityPathBatches : List (String × EntityPathBatch)
  entityPathsById : List (String × EntityPath)
  loadedStatisticsFiles : List (String × StatisticsFile)
  deriving DecidableEq

/-- The state built by the constructor: every registry and cache empty. -/
def AnimationData.new : AnimationData :=
  { availableReplications := []
    modelLayout := none
    sharedVisualConfig := none
    activeReplicationId := none
    loadedEntityPathBatches := []
    entityPathsById := []
    loadedStatisticsFiles := [] }

/-- `String.startsWith`, restated on the underlying character lists (the
byte-position-based core implementation does not reduce in the kernel;
this equivalent form does). -/
def strStartsWith (s pre : String) : Bool := List.isPrefixOf pre.data s.data

/-- The manifest path constructed for a directory entry named `n`:
`replications/<n>/animation_manifest_<n>.json`. -/
def manifestPathFor (n : String) : String :=
  "replications/" ++ n ++ "/animation_manifest_" ++ n ++ ".json"

/-- The body of the `for` loop of `initializeOrDiscoverReplications`,
processing one directory entry. -/
def AnimationData.discoverStep (r : FileReader) (s : AnimationData)
    (item : FileListItem) : AnimationData :=
  if item.isDirectory && strStartsWith item.name ("rep_") then
    match r.manifestAt (manifestPathFor item.name) with
    | none => s
    | some manifest =>
      let s1 : AnimationData :=
        { s with availableReplications :=
            mapSet manifest.metadata.replication manifest s.availableReplications }
      let s2 : AnimationData :=
        if s1.modelLayout.isNone ∧ manifest.metadata.modelLayoutPath ≠ "" then
          { s1 with modelLayout := r.layoutAt manifest.metadata.modelLayoutPath }
        else s1
      if s2.sharedVisualConfig.isNone ∧ manifest.metadata.sharedVisualConfigPath ≠ "" then
        { s2 with sharedVisualConfig :=
            r.visualConfigAt manifest.metadata.sharedVisualConfigPath }
      else s2
  else s

/-- `initializeOrDiscoverReplications`: list the `replications` directory;
on a listing failure return unchanged, otherwise process every entry. -/
def AnimationData.initializeOrDiscoverReplications (r : FileReader)
    (s : AnimationData) : AnimationData :=
  match r.listDirectoryContents ("replications") with
  | none => s
  | some items => items.foldl (AnimationData.discoverStep r) s

/-- `loadEntityPathBatch`: skip when the path is already cached; otherwise
fetch, cache the batch and index every entity it contains. -/
def AnimationData.loadEntityPathBatch (r : FileReader) (s : AnimationData)
    (fileInfo : EntityPathDataFileInfo) : AnimationData :=
  if mapHas fileInfo.filePath s.loadedEntityPathBatches then s
  else
    match r.entityBatchAt fileInfo.filePath with
    | none => s
    | some batch =>
      { s with
        loadedEntityPathBatches :=
          mapSet fileInfo.filePath batch s.loadedEntityPathBatches
        entityPathsById :=
          batch.foldl (fun idx kv => mapSet kv.1 kv.2 idx) s.entityPathsById }

/-- `loadStatisticsFile`: skip when the path is already cached; otherwise
fetch and cache under the file path. -/
def AnimationData.loadStatisticsFile (r : FileReader) (s : AnimationData)
    (fileInfo : StatisticsDataFileInfo) : AnimationData :=
  if mapHas fileInfo.filePath s.loadedStatisticsFiles then s
  else
    match r.statisticsAt fileInfo.filePath with
    | none => s
    | some statFile =>
      { s with loadedStatisticsFiles :=
          mapSet fileInfo.filePath statFile s.loadedStatisticsFiles }

/-- `loadAllStatisticsFiles` (`Promise.all`); see the header note on why the
parallel load's final cache equals this sequential fold. -/
def AnimationData.loadAllStatisticsFiles (r : FileReader) (s : AnimationData)
    (files : List StatisticsDataFileInfo) : AnimationData :=
  files.foldl (AnimationData.loadStatisticsFile r) s

/-- `setActiveReplication`: unknown id fails without touching the state;
otherwise record the id, clear all three caches, load all batch files then
all statistics files of the manifest, and return `true`. -/
def AnimationData.setActiveReplication (r : FileReader) (s : AnimationData)
    (replicationId : Int) : Bool × AnimationData :=
  match mapGet replicationId s.availableReplications with
  | none => (false, s)
  | some manifest =>
    let s1 : AnimationData :=
      { s with activeReplicationId := some replicationId
               loadedEntityPathBatches := []
               entityPathsById := []
               loadedStatisticsFiles := [] }
    let s2 := manifest.entityPathDataFiles.foldl (AnimationData.loadEntityPathBatch r) s1
    let s3 := AnimationData.loadAllStatisticsFiles r s2 manifest.statisticsDataFiles
    (true, s3)

/-- `getActiveReplicationMetadata`. -/
def AnimationData.getActiveReplicationMetadata (s : AnimationData) :
    Option ReplicationManifestMetadata :=
  match s.activeReplicationId with
  | none => none
  | some id => (mapGet id s.availableReplications).map (fun m => m.metadata)

/-- `getActiveReplicationId`. -/
def AnimationData.getActiveReplicationId (s : AnimationData) : Option Int :=
  s.activeReplicationId

/-- The fallback scan of `getEntityPath` over the loaded batches, in map
iteration order. -/
def findInBatches (entityId : String) : List (String × EntityPathBatch) → Option EntityPath
  | [] => none
  | kb :: rest =>
    match mapGet entityId kb.2 with
    | some p => some p
    | none => findInBatches entityId rest

/-- `getEntityPath`: index lookup first; on a miss, scan the loaded batches
and (when found there) also index the entity before returning it.  The
returned pair is (result, state after the call). -/
def AnimationData.getEntityPath (s : AnimationData) (entityId : String) :
    Option EntityPath × AnimationData :=
  match mapGet entityId s.entityPathsById with
  | some p => (some p, s)
  | none =>
    match findInBatches entityId s.loadedEntityPathBatches with
    | some p => (some p, { s with entityPathsById := mapSet entityId p s.entityPathsById })
    | none => (none, s)

/-- `getLoadedEntityIds`: the indexed ids in insertion order. -/
def AnimationData.getLoadedEntityIds (s : AnimationData) : List String :=
  s.entityPathsById.map (fun kv => kv.1)

/-- `getEntitiesByType`: linear filter of the index into a fresh map. -/
def AnimationData.getEntitiesByType (s : AnimationData) (type : String) :
    List (String × EntityPath) :=
  s.entityPathsById.foldl
    (fun result kv => if kv.2.type = type then mapSet kv.1 kv.2 result else result) []

/-- `getStatistic`: first loaded file (in cache iteration order) whose
metadata matches all three key fields exactly. -/
def AnimationData.getStatistic (s : AnimationData)
    (type componentId metricName : String) : Option StatisticsFile :=
  (s.loadedStatisticsFiles.map (fun kv => kv.2)).find? (fun f =>
    f.metadata.type == type && f.metadata.metricName == metricName &&
      f.metadata.componentId == some componentId)

/-- The interpolation loop of `getStatisticValueAtTime`: scan adjacent
pairs for the first bracket and interpolate there. -/
def interpAt (time : ℚ) : List StatisticsTimeSeriesPoint → Option ℚ
  | [] => none
  | [_] => none
  | p :: q :: rest =>
    if p.time ≤ time ∧ q.time ≥ time then
      some (p.value + (time - p.time) / (q.time - p.time) * (q.value - p.value))
    else interpAt time (q :: rest)

/-- `getStatisticValueAtTime`. -/
def AnimationData.getStatisticValueAtTime (s : AnimationData)
    (type componentId metricName : String) (time : ℚ) : Option ℚ :=
  match s.getStatistic type componentId metricName with
  | none => none
  | some stat => interpAt time stat.timeSeries

/-- `getStatisticSummary`. -/
def AnimationData.getStatisticSummary (s : AnimationData)
    (type componentId metricName : String) : Option StatisticsSummary :=
  (s.getStatistic type componentId metricName).map (fun f => f.summary)

/-- `getStatisticTimeSeriesForRange` (`end` is a reserved word in Lean, so
the parameter is named `endTime`). -/
def AnimationData.getStatisticTimeSeriesForRange (s : AnimationData)
    (type componentId metricName : String) (start endTime : ℚ) :
    List StatisticsTimeSeriesPoint :=
  match s.getStatistic type componentId metricName with
  | none => []
  | some stat => stat.timeSeries.filter (fun p => p.time ≥ start && p.time ≤ endTime)

/-! ### Spec-side auxiliary definitions -/

/-- The adjacent pairs `(p[i], p[i+1])` of a time series. -/
def adjacentPairs (ps : List StatisticsTimeSeriesPoint) :
    List (StatisticsTimeSeriesPoint × StatisticsTimeSeriesPoint) :=
  ps.zip ps.tail

/-- The first adjacent pair bracketing `time`, exactly as the interpolation
loop selects it. -/
def firstBracket (time : ℚ) : List StatisticsTimeSeriesPoint →
    Option (StatisticsTimeSeriesPoint × StatisticsTimeSeriesPoint)
  | [] => none
  | [_] => none
  | p :: q :: rest =>
    if p.time ≤ time ∧ q.time ≥ time then some (p, q)
    else firstBracket time (q :: rest)

/-- Merge one batch's entries into the flat entity index, last write wins. -/
def foldIndex (idx : List (String × EntityPath)) (b : EntityPathBatch) :
    List (String × EntityPath) :=
  b.foldl (fun acc kv => mapSet kv.1 kv.2 acc) idx

/-- The last-write-wins union, in load order, of all batches held in the
batch cache. -/
def unionOfBatches (bs : List (String × EntityPathBatch)) :
    List (String × EntityPath) :=
  bs.foldl (fun acc kb => foldIndex acc kb.2) []

/-- The effect of `loadEntityPathBatch` on the pair
(batch cache, entity index); the method touches no other field. -/
def loadBatchPair (r : FileReader)
    (st : List (String × EntityPathBatch) × List (String × EntityPath))
    (fi : EntityPathDataFileInfo) :
    List (String × EntityPathBatch) × List (String × EntityPath) :=
  if mapHas fi.filePath st.1 then st
  else
    match r.entityBatchAt fi.filePath with
    | none => st
    | some batch => (mapSet fi.filePath batch st.1, foldIndex st.2 batch)

/-- The effect of `loadStatisticsFile` on the statistics cache. -/
def statSetStep (r : FileReader) (st : List (String × StatisticsFile))
    (fi : StatisticsDataFileInfo) : List (String × StatisticsFile) :=
  if mapHas fi.filePath st then st
  else
    match r.statisticsAt fi.filePath with
    | none => st
    | some f => mapSet fi.filePath f st

/-- The model-layout paths declared, in discovery order, by the manifests
that a discovery pass over `items` parses successfully. -/
def layoutCandidatePaths (r : FileReader) : List FileListItem → List String
  | [] => []
  | item :: rest =>
    (if item.isDirectory && strStartsWith item.name ("rep_") then
      match r.manifestAt (manifestPathFor item.name) with
      | some m =>
        if m.metadata.modelLayoutPath ≠ "" then [m.metadata.modelLayoutPath] else []
      | none => []
    else []) ++ layoutCandidatePaths r rest

/-- The visual-config paths declared, in discovery order, by the manifests
that a discovery pass over `items` parses successfully. -/
def visualConfigCandidatePaths (r : FileReader) : List FileListItem → List String
  | [] => []
  | item :: rest =>
    (if item.isDirectory && strStartsWith item.name ("rep_") then
      match r.manifestAt (manifestPathFor item.name) with
      | some m =>
        if m.metadata.sharedVisualConfigPath ≠ "" then [m.metadata.sharedVisualConfigPath] else []
      | none => []
    else []) ++ visualConfigCandidatePaths r rest

/-- First non-`none` element of a list of options. -/
def firstSome {α : Type} : List (Option α) → Option α
  | [] => none
  | o :: rest =>
    match o with
    | some v => some v
    | none => firstSome rest

/-- The states reachable from a fresh instance through the public
operations: discovery, activation, and the (potentially mutating) entity
query; the remaining queries do not touch the state. -/
inductive Reachable (r : FileReader) : AnimationData → Prop where
  | init : Reachable r AnimationData.new
  | discover {s : AnimationData} :
      Reachable r s → Reachable r (AnimationData.initializeOrDiscoverReplications r s)
  | activate {s : AnimationData} (id : Int) :
      Reachable r s → Reachable r (AnimationData.setActiveReplication r s id).2
  | entityQuery {s : AnimationData} (entityId : String) :
      Reachable r s → Reachable r (AnimationData.getEntityPath s entityId).2

/-! ### Concrete instances used by witnesses and counterexamples -/

/-- Key strings of the worked statistics example. -/
def exType : String := "activity_metric"

/-- Component id of the worked statistics example. -/
def exComp : String := "act1"

/-- Metric name of the worked statistics example. -/
def exMetric : String := "queueLength"

/-- Path of the demo statistics file. -/
def exStatPath : String := "stats.json"

/-- First sample of the spec's worked series `[(0,10),(10,20)]`. -/
def demoPoint0 : StatisticsTimeSeriesPoint := { time := 0, value := 10 }

/-- Second sample of the spec's worked series. -/
def demoPoint1 : StatisticsTimeSeriesPoint := { time := 10, value := 20 }

/-- The statistics file holding the spec's worked series. -/
def demoStatFile : StatisticsFile :=
  { metadata :=
      { type := exType, componentId := some exComp, metricName := exMetric
        simulationId := "sim1", replication := 1, timeStart := 0, timeEnd := 10
        timeUnit := "min" }
    summary := { min := 10, max := 20, mean := 15, median := 15, stdDev := 5, count := 2 }
    timeSeries := [demoPoint0, demoPoint1] }

/-- A state whose statistics cache holds exactly the demo file. -/
def ex1State : AnimationData :=
  { AnimationData.new with loadedStatisticsFiles := [(exStatPath, demoStatFile)] }

/-- Demo batch with one customer entity. -/
def wBatch : EntityPathBatch := [("e1", { type := "Customer", path := [] })]

/-- Shared metadata skeleton for demo manifests. -/
def wMeta : ReplicationManifestMetadata :=
  { formatVersion := "1.0", simulationId := "sim1", replication := 1, name := none
    duration := 100, timeUnit := "min", modelLayoutPath := ""
    sharedVisualConfigPath := "", backgroundSvgPath := "" }

/-- Demo manifest for replication 1: one batch file, one statistics file. -/
def wManifest : ReplicationManifestData :=
  { metadata := wMeta
    entityPathDataFiles :=
      [{ filePath := "batch1.json", entryTimeStart := 0, entryTimeEnd := 10,
         entityCount := some 1 }]
    statisticsDataFiles :=
      [{ type := exType, componentId := some exComp, metricName := exMetric
         filePath := exStatPath, timeStart := some 0, timeEnd := some 10 }] }

/-- Demo reader serving one replication directory with the demo manifest,
batch and statistics file. -/
def wReader : FileReader :=
  { listDirectoryContents := fun p =>
      if p = ("replications") then
        some [{ name := "rep_001", path := "replications/rep_001", isDirectory := true }]
      else none
    manifestAt := fun p => if p = manifestPathFor ("rep_001") then some wManifest else none
    layoutAt := fun _ => none
    visualConfigAt := fun _ => none
    entityBatchAt := fun p => if p = ("batch1.json") then some wBatch else none
    statisticsAt := fun p => if p = exStatPath then some demoStatFile else none }

/-- Second demo batch, used by the two-replication scenario. -/
def w3Batch2 : EntityPathBatch := [("e2", { type := "Resource", path := [] })]

/-- Demo manifest for replication 2. -/
def w3Manifest2 : ReplicationManifestData :=
  { metadata := { wMeta with replication := 2 }
    entityPathDataFiles :=
      [{ filePath := "batch2.json", entryTimeStart := 0, entryTimeEnd := 10,
         entityCount := some 1 }]
    statisticsDataFiles := [] }

/-- Demo state with two registered replications. -/
def w3State : AnimationData :=
  { AnimationData.new with availableReplications := [(1, wManifest), (2, w3Manifest2)] }

/-- Reader for the two-replication scenario. -/
def w3Reader : FileReader :=
  { wReader with entityBatchAt := fun p =>
      if p = ("batch1.json") then some wBatch
      else if p = ("batch2.json") then some w3Batch2
      else none }

/-- Registered-state variant used by the idempotence witness. -/
def w8State : AnimationData :=
  { AnimationData.new with availableReplications := [(1, wManifest)] }

/-- The model-layout document served for the second manifest of the
first-wins counterexample. -/
def cexLayoutB : ModelLayout := { simulationId := "simB" }

/-- Metadata of the counterexample's first manifest: declares layout path
`layoutA.json`, which fails to load. -/
def cexMeta1 : ReplicationManifestMetadata :=
  { wMeta with simulationId := "simA", modelLayoutPath := "layoutA.json" }

/-- First manifest of the first-wins counterexample. -/
def cexM1 : ReplicationManifestData :=
  { metadata := cexMeta1, entityPathDataFiles := [], statisticsDataFiles := [] }

/-- Metadata of the counterexample's second manifest: declares layout path
`layoutB.json`, which loads successfully. -/
def cexMeta2 : ReplicationManifestMetadata :=
  { cexMeta1 with replication := 2, modelLayoutPath := "layoutB.json" }

/-- Second manifest of the first-wins counterexample. -/
def cexM2 : ReplicationManifestData :=
  { metadata := cexMeta2, entityPathDataFiles := [], statisticsDataFiles := [] }

/-- Directory listing of the first-wins counterexample. -/
def cexItems : List FileListItem :=
  [{ name := "rep_001", path := "replications/rep_001", isDirectory := true },
   { name := "rep_002", path := "replications/rep_002", isDirectory := true }]

/-- Reader of the first-wins counterexample: the first declared layout path
is unreadable, the second loads. -/
def cexReader : FileReader :=
  { listDirectoryContents := fun p => if p = ("replications") then some cexItems else none
    manifestAt := fun p =>
      if p = manifestPathFor ("rep_001") then some cexM1
      else if p = manifestPathFor ("rep_002") then some cexM2
      else none
    layoutAt := fun p => if p = ("layoutB.json") then some cexLayoutB else none
    visualConfigAt := fun _ => none
    entityBatchAt := fun _ => none
    statisticsAt := fun _ => none }

/-- Listing for the malformed-entry discovery witness. -/
def w6Items : List FileListItem := cexItems

/-- Reader for the malformed-entry discovery witness: `rep_001` carries a
well-formed manifest, `rep_002`'s manifest fails to read or parse. -/
def w6Reader : FileReader :=
  { wReader with
    listDirectoryContents := fun p => if p = ("replications") then some w6Items else none
    manifestAt := fun p => if p = manifestPathFor ("rep_001") then some wManifest else none }

/-- Statistics file with three strictly increasing samples, used to refute
the ratio clause of the exact-timestamp claim. -/
def cex9StatFile : StatisticsFile :=
  { demoStatFile with timeSeries :=
      [demoPoint0, demoPoint1, { time := 20, value := 30 }] }

/-- State whose statistics cache holds the three-sample file. -/
def cex9State : AnimationData :=
  { AnimationData.new with loadedStatisticsFiles := [(exStatPath, cex9StatFile)] }

/-- State with the shared layout already set, for the first-wins witness. -/
def w5State : AnimationData :=
  { AnimationData.new with modelLayout := some cexLayoutB }

/-! ### Association-list lemmas -/

theorem mem_mapSet {α β : Type} [DecidableEq α] {k : α} {v : β} {l : List (α × β)}
    {kv : α × β} (h : kv ∈ mapSet k v l) : kv = (k, v) ∨ kv ∈ l := by
  induction l with
  | nil => simpa [mapSet] using h
  | cons hd tl ih =>
    simp only [mapSet] at h
    split at h
    · rcases List.mem_cons.mp h with h1 | h1
      · exact Or.inl h1
      · exact Or.inr (List.mem_cons_of_mem _ h1)
    · rcases List.mem_cons.mp h with h1 | h1
      · exact Or.inr (h1 ▸ List.mem_cons_self hd tl)
      · rcases ih h1 with h2 | h2
        · exact Or.inl h2
        · exact Or.inr (List.mem_cons_of_mem _ h2)

theorem mapGet_mem {α β : Type} [DecidableEq α] {k : α} {v : β} :
    ∀ {l : List (α × β)}, mapGet k l = some v → (k, v) ∈ l := by
  intro l
  induction l with
  | nil => intro h; simp [mapGet] at h
  | cons hd tl ih =>
    intro h
    simp only [mapGet] at h
    split at h
    · have hv : hd.2 = v := Option.some.inj h
      have hk : hd.1 = k := by assumption
      have : hd = (k, v) := by
        cases hd
        simp_all
      exact this ▸ List.mem_cons_self hd tl
    · exact List.mem_cons_of_mem _ (ih h)

theorem mapHas_mapSet_self {α β : Type} [DecidableEq α] (k : α) (v : β)
    (l : List (α × β)) : mapHas k (mapSet k v l) = true := by
  induction l with
  | nil => simp [mapSet, mapHas, mapGet]
  | cons hd tl ih =>
    simp only [mapSet]
    split
    · simp [mapHas, mapGet]
    · rename_i hk
      simpa [mapHas, mapGet, hk] using ih

theorem mapHas_mapSet_mono {α β : Type} [DecidableEq α] {k' : α} (k : α) (v : β)
    {l : List (α × β)} (h : mapHas k' l = true) :
    mapHas k' (mapSet k v l) = true := by
  induction l with
  | nil => simp [mapHas, mapGet] at h
  | cons hd tl ih =>
    simp only [mapSet]
    split
    · rename_i hk
      by_cases hk' : k = k'
      · simp [mapHas, mapGet, hk']
      · simp only [mapHas, mapGet] at h ⊢
        rw [if_neg hk']
        rw [if_neg (by rw [hk]; exact hk')] at h
        exact h
    · by_cases hk' : hd.1 = k'
      · simp [mapHas, mapGet, hk']
      · simp only [mapHas, mapGet, if_neg hk'] at h ⊢
        exact ih h

theorem mapSet_of_not_has {α β : Type} [DecidableEq α] {k : α} (v : β)
    {l : List (α × β)} (h : mapHas k l = false) :
    mapSet k v l = l ++ [(k, v)] := by
  induction l with
  | nil => simp [mapSet]
  | cons hd tl ih =>
    simp only [mapHas, mapGet] at h
    simp only [mapSet]
    split
    · rename_i hk
      rw [if_pos hk] at h
      simp at h
    · rename_i hk
      rw [if_neg hk] at h
      simp [ih h]

/-! ### Lemmas about batch merging and the flat-index union -/

theorem foldIndex_cons (idx : List (String × EntityPath)) (kv : String × EntityPath)
    (b : EntityPathBatch) :
    foldIndex idx (kv :: b) = foldIndex (mapSet kv.1 kv.2 idx) b := rfl

theorem mapHas_foldIndex_of_has {k : String} :
    ∀ (b : EntityPathBatch) (idx : List (String × EntityPath)),
      mapHas k idx = true → mapHas k (foldIndex idx b) = true := by
  intro b
  induction b with
  | nil => intro idx h; exact h
  | cons kv b ih =>
    intro idx h
    rw [foldIndex_cons]
    exact ih _ (mapHas_mapSet_mono _ _ h)

theorem mapHas_foldIndex_of_mem {k : String} {v : EntityPath} :
    ∀ (b : EntityPathBatch) (idx : List (String × EntityPath)),
      (k, v) ∈ b → mapHas k (foldIndex idx b) = true := by
  intro b
  induction b with
  | nil => intro idx h; simp at h
  | cons kv b ih =>
    intro idx h
    rw [foldIndex_cons]
    rcases List.mem_cons.mp h with h1 | h1
    · have : kv.1 = k := by rw [← h1]
      exact mapHas_foldIndex_of_has _ _ (this ▸ mapHas_mapSet_self kv.1 kv.2 idx)
    · exact ih _ h1

theorem mem_foldIndex {kv : String × EntityPath} :
    ∀ (b : EntityPathBatch) (idx : List (String × EntityPath)),
      kv ∈ foldIndex idx b → kv ∈ idx ∨ kv ∈ b := by
  intro b
  induction b with
  | nil => intro idx h; exact Or.inl h
  | cons hd b ih =>
    intro idx h
    rw [foldIndex_cons] at h
    rcases ih _ h with h1 | h1
    · rcases mem_mapSet h1 with h2 | h2
      · right
        rw [h2]
        exact List.mem_cons_self hd b
      · exact Or.inl h2
    · exact Or.inr (List.mem_cons_of_mem _ h1)

theorem unionOfBatches_append_single (bs : List (String × EntityPathBatch))
    (kb : String × EntityPathBatch) :
    unionOfBatches (bs ++ [kb]) = foldIndex (unionOfBatches bs) kb.2 := by
  simp [unionOfBatches, List.foldl_append]

theorem mapHas_unionFold_of_has {k : String} :
    ∀ (bs : List (String × EntityPathBatch)) (acc : List (String × EntityPath)),
      mapHas k acc = true →
      mapHas k (bs.foldl (fun a kb => foldIndex a kb.2) acc) = true := by
  intro bs
  induction bs with
  | nil => intro acc h; exact h
  | cons kb bs ih =>
    intro acc h
    rw [List.foldl_cons]
    exact ih _ (mapHas_foldIndex_of_has _ _ h)

theorem mapHas_unionOfBatches {k : String} {v : EntityPath}
    {kb : String × EntityPathBatch} :
    ∀ (bs : List (String × EntityPathBatch)),
      kb ∈ bs → (k, v) ∈ kb.2 → mapHas k (unionOfBatches bs) = true := by
  have aux : ∀ (bs : List (String × EntityPathBatch)) (acc : List (String × EntityPath)),
      kb ∈ bs → (k, v) ∈ kb.2 →
      mapHas k (bs.foldl (fun a b => foldIndex a b.2) acc) = true := by
    intro bs
    induction bs with
    | nil => intro acc h; simp at h
    | cons hd bs ih =>
      intro acc hmem hv
      rw [List.foldl_cons]
      rcases List.mem_cons.mp hmem with h1 | h1
      · subst h1
        exact mapHas_unionFold_of_has _ _ (mapHas_foldIndex_of_mem _ _ hv)
      · exact ih _ h1 hv
  intro bs hmem hv
  exact aux bs [] hmem hv

/-! ### Normal forms of the loaders and of activation -/

theorem loadEntityPathBatch_eq (r : FileReader) (s : AnimationData)
    (fi : EntityPathDataFileInfo) :
    AnimationData.loadEntityPathBatch r s fi =
      { s with
        loadedEntityPathBatches :=
          (loadBatchPair r (s.loadedEntityPathBatches, s.entityPathsById) fi).1
        entityPathsById :=
          (loadBatchPair r (s.loadedEntityPathBatches, s.entityPathsById) fi).2 } := by
  unfold AnimationData.loadEntityPathBatch loadBatchPair foldIndex
  split
  · rfl
  · cases r.entityBatchAt fi.filePath <;> rfl

theorem foldl_loadEntityPathBatch_eq (r : FileReader) :
    ∀ (files : List EntityPathDataFileInfo) (s : AnimationData),
      files.foldl (AnimationData.loadEntityPathBatch r) s =
        { s with
          loadedEntityPathBatches :=
            (files.foldl (loadBatchPair r) (s.loadedEntityPathBatches, s.entityPathsById)).1
          entityPathsById :=
            (files.foldl (loadBatchPair r) (s.loadedEntityPathBatches, s.entityPathsById)).2 } := by
  intro files
  induction files with
  | nil => intro s; rfl
  | cons f fs ih =>
    intro s
    rw [List.foldl_cons, List.foldl_cons, loadEntityPathBatch_eq, ih]

theorem loadStatisticsFile_eq (r : FileReader) (s : AnimationData)
    (fi : StatisticsDataFileInfo) :
    AnimationData.loadStatisticsFile r s fi =
      { s with loadedStatisticsFiles := statSetStep r s.loadedStatisticsFiles fi } := by
  unfold AnimationData.loadStatisticsFile statSetStep
  split
  · rfl
  · cases r.statisticsAt fi.filePath <;> rfl

theorem foldl_loadStatisticsFile_eq (r : FileReader) :
    ∀ (files : List StatisticsDataFileInfo) (s : AnimationData),
      files.foldl (AnimationData.loadStatisticsFile r) s =
        { s with loadedStatisticsFiles :=
            files.foldl (statSetStep r) s.loadedStatisticsFiles } := by
  intro files
  induction files with
  | nil => intro s; rfl
  | cons f fs ih =>
    intro s
    rw [List.foldl_cons, List.foldl_cons, loadStatisticsFile_eq, ih]

theorem setActiveReplication_fail (r : FileReader) (s : AnimationData)
    (id : Int) (h : mapGet id s.availableReplications = none) :
    AnimationData.setActiveReplication r s id = (false, s) := by
  unfold AnimationData.setActiveReplication
  rw [h]

theorem setActiveReplication_success (r : FileReader) (s : AnimationData)
    (id : Int) (m : ReplicationManifestData)
    (h : mapGet id s.availableReplications = some m) :
    AnimationData.setActiveReplication r s id =
      (true,
        { s with
          activeReplicationId := some id
          loadedEntityPathBatches := (m.entityPathDataFiles.foldl (loadBatchPair r) ([], [])).1
          entityPathsById := (m.entityPathDataFiles.foldl (loadBatchPair r) ([], [])).2
          loadedStatisticsFiles := m.statisticsDataFiles.foldl (statSetStep r) [] }) := by
  unfold AnimationData.setActiveReplication AnimationData.loadAllStatisticsFiles
  rw [h]
  simp only [foldl_loadEntityPathBatch_eq, foldl_loadStatisticsFile_eq]

/-! ### Discovery lemmas -/

theorem discoverStep_caches (r : FileReader) (s : AnimationData) (item : FileListItem) :
    (AnimationData.discoverStep r s item).loadedEntityPathBatches = s.loadedEntityPathBatches ∧
    (AnimationData.discoverStep r s item).entityPathsById = s.entityPathsById ∧
    (AnimationData.discoverStep r s item).loadedStatisticsFiles = s.loadedStatisticsFiles ∧
    (AnimationData.discoverStep r s item).activeReplicationId = s.activeReplicationId := by
  unfold AnimationData.discoverStep
  split
  · split
    · exact ⟨rfl, rfl, rfl, rfl⟩
    · dsimp only
      split <;> split <;> exact ⟨rfl, rfl, rfl, rfl⟩
  · exact ⟨rfl, rfl, rfl, rfl⟩

theorem discoverStep_avail_mem {kv : Int × ReplicationManifestData}
    (r : FileReader) (s : AnimationData) (item : FileListItem)
    (h : kv ∈ (AnimationData.discoverStep r s item).availableReplications) :
    kv ∈ s.availableReplications ∨
      (item.isDirectory = true ∧ strStartsWith item.name ("rep_") = true ∧
        r.manifestAt (manifestPathFor item.name) = some kv.2 ∧
        kv.1 = kv.2.metadata.replication) := by
  unfold AnimationData.discoverStep at h
  split at h
  · rename_i hcond
    rcases Bool.and_eq_true .. |>.mp hcond with ⟨hdir, hpre⟩
    split at h
    · exact Or.inl h
    · rename_i manifest hm
      dsimp only at h
      have havail : kv ∈ mapSet manifest.metadata.replication manifest s.availableReplications := by
        split at h <;> split at h <;> simpa using h
      rcases mem_mapSet havail with h1 | h1
      · refine Or.inr ⟨hdir, hpre, ?_, ?_⟩
        · rw [h1]
          exact hm
        · rw [h1]
      · exact Or.inl h1
  · exact Or.inl h

theorem discoverStep_avail_has_mono {k : Int} (r : FileReader) (s : AnimationData)
    (item : FileListItem) (h : mapHas k s.availableReplications = true) :
    mapHas k (AnimationData.discoverStep r s item).availableReplications = true := by
  unfold AnimationData.discoverStep
  split
  · split
    · exact h
    · dsimp only
      split <;> split <;> simpa using mapHas_mapSet_mono _ _ h
  · exact h

theorem discoverStep_registers {m : ReplicationManifestData}
    (r : FileReader) (s : AnimationData) (item : FileListItem)
    (hdir : item.isDirectory = true) (hpre : strStartsWith item.name ("rep_") = true)
    (hm : r.manifestAt (manifestPathFor item.name) = some m) :
    mapHas m.metadata.replication
      (AnimationData.discoverStep r s item).availableReplications = true := by
  unfold AnimationData.discoverStep
  rw [if_pos (by simp [hdir, hpre]), hm]
  dsimp only
  split <;> split <;>
    simpa using mapHas_mapSet_self m.metadata.replication m s.availableReplications

theorem foldl_discoverStep_caches (r : FileReader) :
    ∀ (items : List FileListItem) (s : AnimationData),
      (items.foldl (AnimationData.discoverStep r) s).loadedEntityPathBatches =
          s.loadedEntityPathBatches ∧
      (items.foldl (AnimationData.discoverStep r) s).entityPathsById = s.entityPathsById ∧
      (items.foldl (AnimationData.discoverStep r) s).loadedStatisticsFiles =
          s.loadedStatisticsFiles ∧
      (items.foldl (AnimationData.discoverStep r) s).activeReplicationId =
          s.activeReplicationId := by
  intro items
  induction items with
  | nil => intro s; exact ⟨rfl, rfl, rfl, rfl⟩
  | cons item items ih =>
    intro s
    rw [List.foldl_cons]
    obtain ⟨h1, h2, h3, h4⟩ := ih (AnimationData.discoverStep r s item)
    obtain ⟨g1, g2, g3, g4⟩ := discoverStep_caches r s item
    exact ⟨h1.trans g1, h2.trans g2, h3.trans g3, h4.trans g4⟩

theorem initializeOrDiscoverReplications_caches (r : FileReader) (s : AnimationData) :
    (AnimationData.initializeOrDiscoverReplications r s).loadedEntityPathBatches =
        s.loadedEntityPathBatches ∧
    (AnimationData.initializeOrDiscoverReplications r s).entityPathsById =
        s.entityPathsById ∧
    (AnimationData.initializeOrDiscoverReplications r s).loadedStatisticsFiles =
        s.loadedStatisticsFiles ∧
    (AnimationData.initializeOrDiscoverReplications r s).activeReplicationId =
        s.activeReplicationId := by
  unfold AnimationData.initializeOrDiscoverReplications
  split
  · exact ⟨rfl, rfl, rfl, rfl⟩
  · exact foldl_discoverStep_caches r _ s

theorem foldl_discoverStep_avail_mem (r : FileReader) :
    ∀ (items : List FileListItem) (s : AnimationData) (kv : Int × ReplicationManifestData),
      kv ∈ (items.foldl (AnimationData.discoverStep r) s).availableReplications →
      kv ∈ s.availableReplications ∨
        ∃ item ∈ items, item.isDirectory = true ∧ strStartsWith item.name ("rep_") = true ∧
          r.manifestAt (manifestPathFor item.name) = some kv.2 ∧
          kv.1 = kv.2.metadata.replication := by
  intro items
  induction items with
  | nil => intro s kv h; exact Or.inl h
  | cons item items ih =>
    intro s kv h
    rw [List.foldl_cons] at h
    rcases ih _ kv h with h1 | h1
    · rcases discoverStep_avail_mem r s item h1 with h2 | h2
      · exact Or.inl h2
      · exact Or.inr ⟨item, List.mem_cons_self item items, h2⟩
    · obtain ⟨it, hmem, hrest⟩ := h1
      exact Or.inr ⟨it, List.mem_cons_of_mem _ hmem, hrest⟩

theorem foldl_discoverStep_avail_has_mono {k : Int} (r : FileReader) :
    ∀ (items : List FileListItem) (s : AnimationData),
      mapHas k s.availableReplications = true →
      mapHas k (items.foldl (AnimationData.discoverStep r) s).availableReplications = true := by
  intro items
  induction items with
  | nil => intro s h; exact h
  | cons item items ih =>
    intro s h
    rw [List.foldl_cons]
    exact ih _ (discoverStep_avail_has_mono r s item h)

theorem foldl_discoverStep_registers {m : ReplicationManifestData} (r : FileReader) :
    ∀ (items : List FileListItem) (s : AnimationData) (item : FileListItem),
      item ∈ items → item.isDirectory = true → strStartsWith item.name ("rep_") = true →
      r.manifestAt (manifestPathFor item.name) = some m →
      mapHas m.metadata.replication
        (items.foldl (AnimationData.discoverStep r) s).availableReplications = true := by
  intro items
  induction items with
  | nil => intro s item h; simp at h
  | cons hd items ih =>
    intro s item hmem hdir hpre hm
    rw [List.foldl_cons]
    rcases List.mem_cons.mp hmem with h1 | h1
    · subst h1
      exact foldl_discoverStep_avail_has_mono r items _
        (discoverStep_registers r s item hdir hpre hm)
    · exact ih _ item h1 hdir hpre hm

/-- The manifest a discovery step actually processes: present only when the
entry is a directory with the `rep_` prefix and its manifest parses. -/
def consideredManifest (r : FileReader) (item : FileListItem) :
    Option ReplicationManifestData :=
  if item.isDirectory && strStartsWith item.name ("rep_") then
    r.manifestAt (manifestPathFor item.name)
  else none

theorem discoverStep_layout (r : FileReader) (s : AnimationData) (item : FileListItem) :
    (AnimationData.discoverStep r s item).modelLayout =
      match consideredManifest r item with
      | none => s.modelLayout
      | some m =>
        if s.modelLayout = none ∧ m.metadata.modelLayoutPath ≠ "" then
          r.layoutAt m.metadata.modelLayoutPath
        else s.modelLayout := by
  unfold AnimationData.discoverStep consideredManifest
  by_cases hc : (item.isDirectory && strStartsWith item.name ("rep_")) = true
  · rw [if_pos hc, if_pos hc]
    cases hm : r.manifestAt (manifestPathFor item.name) with
    | none => rfl
    | some m =>
      dsimp only
      by_cases hL : s.modelLayout = none ∧ m.metadata.modelLayoutPath ≠ ""
      · have hL' : s.modelLayout.isNone = true ∧ m.metadata.modelLayoutPath ≠ "" :=
          ⟨Option.isNone_iff_eq_none.mpr hL.1, hL.2⟩
        rw [if_pos hL, if_pos hL']
        split <;> rfl
      · have hL' : ¬(s.modelLayout.isNone = true ∧ m.metadata.modelLayoutPath ≠ "") :=
          fun hp => hL ⟨Option.isNone_iff_eq_none.mp hp.1, hp.2⟩
        rw [if_neg hL, if_neg hL']
        split <;> rfl
  · rw [if_neg hc, if_neg hc]

theorem discoverStep_config (r : FileReader) (s : AnimationData) (item : FileListItem) :
    (AnimationData.discoverStep r s item).sharedVisualConfig =
      match consideredManifest r item with
      | none => s.sharedVisualConfig
      | some m =>
        if s.sharedVisualConfig = none ∧ m.metadata.sharedVisualConfigPath ≠ "" then
          r.visualConfigAt m.metadata.sharedVisualConfigPath
        else s.sharedVisualConfig := by
  unfold AnimationData.discoverStep consideredManifest
  by_cases hc : (item.isDirectory && strStartsWith item.name ("rep_")) = true
  · rw [if_pos hc, if_pos hc]
    cases hm : r.manifestAt (manifestPathFor item.name) with
    | none => rfl
    | some m =>
      dsimp only
      by_cases hV : s.sharedVisualConfig = none ∧ m.metadata.sharedVisualConfigPath ≠ ""
      · have hV' : s.sharedVisualConfig.isNone = true ∧
            m.metadata.sharedVisualConfigPath ≠ "" :=
          ⟨Option.isNone_iff_eq_none.mpr hV.1, hV.2⟩
        rw [if_pos hV]
        split <;> (dsimp only; try rw [if_pos hV'])
      · have hV' : ¬(s.sharedVisualConfig.isNone = true ∧
            m.metadata.sharedVisualConfigPath ≠ "") :=
          fun hp => hV ⟨Option.isNone_iff_eq_none.mp hp.1, hp.2⟩
        rw [if_neg hV]
        split <;> (dsimp only; try rw [if_neg hV'])
  · rw [if_neg hc, if_neg hc]

theorem discoverStep_layout_some {v : ModelLayout} (r : FileReader) (s : AnimationData)
    (item : FileListItem) (h : s.modelLayout = some v) :
    (AnimationData.discoverStep r s item).modelLayout = some v := by
  rw [discoverStep_layout]
  cases consideredManifest r item with
  | none => exact h
  | some m =>
    dsimp only
    rw [if_neg (fun hp => by rw [h] at hp; exact Option.noConfusion hp.1)]
    exact h

theorem discoverStep_config_some {v : SharedVisualConfig} (r : FileReader)
    (s : AnimationData) (item : FileListItem) (h : s.sharedVisualConfig = some v) :
    (AnimationData.discoverStep r s item).sharedVisualConfig = some v := by
  rw [discoverStep_config]
  cases consideredManifest r item with
  | none => exact h
  | some m =>
    dsimp only
    rw [if_neg (fun hp => by rw [h] at hp; exact Option.noConfusion hp.1)]
    exact h

theorem foldl_discoverStep_layout_some {v : ModelLayout} (r : FileReader) :
    ∀ (items : List FileListItem) (s : AnimationData), s.modelLayout = some v →
      (items.foldl (AnimationData.discoverStep r) s).modelLayout = some v := by
  intro items
  induction items with
  | nil => intro s h; exact h
  | cons item items ih =>
    intro s h
    rw [List.foldl_cons]
    exact ih _ (discoverStep_layout_some r s item h)

theorem foldl_discoverStep_config_some {v : SharedVisualConfig} (r : FileReader) :
    ∀ (items : List FileListItem) (s : AnimationData), s.sharedVisualConfig = some v →
      (items.foldl (AnimationData.discoverStep r) s).sharedVisualConfig = some v := by
  intro items
  induction items with
  | nil => intro s h; exact h
  | cons item items ih =>
    intro s h
    rw [List.foldl_cons]
    exact ih _ (discoverStep_config_some r s item h)

theorem foldl_discoverStep_layout_none (r : FileReader) :
    ∀ (items : List FileListItem) (s : AnimationData), s.modelLayout = none →
      (items.foldl (AnimationData.discoverStep r) s).modelLayout =
        firstSome ((layoutCandidatePaths r items).map r.layoutAt) := by
  intro items
  induction items with
  | nil => intro s h; simpa [layoutCandidatePaths, firstSome] using h
  | cons item items ih =>
    intro s h
    rw [List.foldl_cons]
    have hstep := discoverStep_layout r s item
    by_cases hc : (item.isDirectory && strStartsWith item.name ("rep_")) = true
    · cases hm : r.manifestAt (manifestPathFor item.name) with
      | none =>
        have hl : (AnimationData.discoverStep r s item).modelLayout = none := by
          rw [hstep]; simp [consideredManifest, hc, hm, h]
        rw [ih _ hl]
        simp [layoutCandidatePaths, hc, hm]
      | some m =>
        by_cases hp : m.metadata.modelLayoutPath = ""
        · have hl : (AnimationData.discoverStep r s item).modelLayout = none := by
            rw [hstep]; simp [consideredManifest, hc, hm, hp, h]
          rw [ih _ hl]
          simp [layoutCandidatePaths, hc, hm, hp]
        · have hcand : layoutCandidatePaths r (item :: items) =
              m.metadata.modelLayoutPath :: layoutCandidatePaths r items := by
            simp [layoutCandidatePaths, hc, hm, hp]
          rw [hcand, List.map_cons]
          cases hL : r.layoutAt m.metadata.modelLayoutPath with
          | some v =>
            have hl : (AnimationData.discoverStep r s item).modelLayout = some v := by
              rw [hstep]; simp [consideredManifest, hc, hm, h, hp, hL]
            rw [foldl_discoverStep_layout_some r items _ hl]
            simp [firstSome, hL]
          | none =>
            have hl : (AnimationData.discoverStep r s item).modelLayout = none := by
              rw [hstep]; simp [consideredManifest, hc, hm, h, hp, hL]
            rw [ih _ hl]
            simp [firstSome, hL]
    · have hl : (AnimationData.discoverStep r s item).modelLayout = none := by
        rw [hstep]; simp [consideredManifest, hc, h]
      rw [ih _ hl]
      simp [layoutCandidatePaths, hc]

theorem foldl_discoverStep_config_none (r : FileReader) :
    ∀ (items : List FileListItem) (s : AnimationData), s.sharedVisualConfig = none →
      (items.foldl (AnimationData.discoverStep r) s).sharedVisualConfig =
        firstSome ((visualConfigCandidatePaths r items).map r.visualConfigAt) := by
  intro items
  induction items with
  | nil => intro s h; simpa [visualConfigCandidatePaths, firstSome] using h
  | cons item items ih =>
    intro s h
    rw [List.foldl_cons]
    have hstep := discoverStep_config r s item
    by_cases hc : (item.isDirectory && strStartsWith item.name ("rep_")) = true
    · cases hm : r.manifestAt (manifestPathFor item.name) with
      | none =>
        have hl : (AnimationData.discoverStep r s item).sharedVisualConfig = none := by
          rw [hstep]; simp [consideredManifest, hc, hm, h]
        rw [ih _ hl]
        simp [visualConfigCandidatePaths, hc, hm]
      | some m =>
        by_cases hp : m.metadata.sharedVisualConfigPath = ""
        · have hl : (AnimationData.discoverStep r s item).sharedVisualConfig = none := by
            rw [hstep]; simp [consideredManifest, hc, hm, hp, h]
          rw [ih _ hl]
          simp [visualConfigCandidatePaths, hc, hm, hp]
        · have hcand : visualConfigCandidatePaths r (item :: items) =
              m.metadata.sharedVisualConfigPath :: visualConfigCandidatePaths r items := by
            simp [visualConfigCandidatePaths, hc, hm, hp]
          rw [hcand, List.map_cons]
          cases hL : r.visualConfigAt m.metadata.sharedVisualConfigPath with
          | some v =>
            have hl : (AnimationData.discoverStep r s item).sharedVisualConfig = some v := by
              rw [hstep]; simp [consideredManifest, hc, hm, h, hp, hL]
            rw [foldl_discoverStep_config_some r items _ hl]
            simp [firstSome, hL]
          | none =>
            have hl : (AnimationData.discoverStep r s item).sharedVisualConfig = none := by
              rw [hstep]; simp [consideredManifest, hc, hm, h, hp, hL]
            rw [ih _ hl]
            simp [firstSome, hL]
    · have hl : (AnimationData.discoverStep r s item).sharedVisualConfig = none := by
        rw [hstep]; simp [consideredManifest, hc, h]
      rw [ih _ hl]
      simp [visualConfigCandidatePaths, hc]

/-! ### Interpolation lemmas -/

theorem adjacentPairs_cons_cons (p q : StatisticsTimeSeriesPoint)
    (rest : List StatisticsTimeSeriesPoint) :
    adjacentPairs (p :: q :: rest) = (p, q) :: adjacentPairs (q :: rest) := rfl

theorem interpAt_eq_firstBracket (t : ℚ) :
    ∀ ps, interpAt t ps =
      (firstBracket t ps).map (fun pq =>
        pq.1.value + (t - pq.1.time) / (pq.2.time - pq.1.time) * (pq.2.value - pq.1.value)) := by
  intro ps
  induction ps with
  | nil => rfl
  | cons p tail ih =>
    cases tail with
    | nil => rfl
    | cons q rest =>
      simp only [interpAt, firstBracket]
      split
      · rfl
      · exact ih

theorem firstBracket_eq_none_iff (t : ℚ) :
    ∀ ps, firstBracket t ps = none ↔
      ∀ pq ∈ adjacentPairs ps, ¬(pq.1.time ≤ t ∧ pq.2.time ≥ t) := by
  intro ps
  induction ps with
  | nil => simp [firstBracket, adjacentPairs]
  | cons p tail ih =>
    cases tail with
    | nil => simp [firstBracket, adjacentPairs]
    | cons q rest =>
      rw [adjacentPairs_cons_cons]
      simp only [firstBracket]
      split
      · rename_i hcond
        constructor
        · intro hfalse; exact Option.noConfusion hfalse
        · intro hall
          exact absurd hcond (hall (p, q) (List.mem_cons_self _ _))
      · rename_i hcond
        rw [List.forall_mem_cons, ih]
        constructor
        · intro hrest; exact ⟨hcond, hrest⟩
        · intro hboth; exact hboth.2

theorem firstBracket_append (t : ℚ) :
    ∀ (pre : List StatisticsTimeSeriesPoint) (p q : StatisticsTimeSeriesPoint)
      (suf : List StatisticsTimeSeriesPoint),
      (∀ pq ∈ adjacentPairs (pre ++ [p]), ¬(pq.1.time ≤ t ∧ pq.2.time ≥ t)) →
      p.time ≤ t → q.time ≥ t →
      firstBracket t (pre ++ p :: q :: suf) = some (p, q) := by
  intro pre
  induction pre with
  | nil =>
    intro p q suf hskip hp hq
    simp [firstBracket, hp, hq]
  | cons x pre ih =>
    intro p q suf hskip hp hq
    cases pre with
    | nil =>
      have hx : ¬(x.time ≤ t ∧ p.time ≥ t) :=
        hskip (x, p) (by simp [adjacentPairs])
      simp [firstBracket, hx, hp, hq]
    | cons y pre =>
      have hxy : ¬(x.time ≤ t ∧ y.time ≥ t) := by
        refine hskip (x, y) ?_
        simp only [List.cons_append, adjacentPairs_cons_cons]
        exact List.mem_cons_self _ _
      have hskip2 : ∀ pq ∈ adjacentPairs ((y :: pre) ++ [p]),
          ¬(pq.1.time ≤ t ∧ pq.2.time ≥ t) := by
        intro pq hmem
        refine hskip pq ?_
        simp only [List.cons_append, adjacentPairs_cons_cons] at hmem ⊢
        exact List.mem_cons_of_mem _ hmem
      have hrec := ih p q suf hskip2 hp hq
      simp only [List.cons_append] at hrec ⊢
      simp only [firstBracket]
      rw [if_neg hxy]
      exact hrec

/-! ### Provenance and invariant lemmas for the caches -/

theorem mem_loadBatchPair_snd {kv : String × EntityPath} (r : FileReader)
    (st : List (String × EntityPathBatch) × List (String × EntityPath))
    (fi : EntityPathDataFileInfo) (h : kv ∈ (loadBatchPair r st fi).2) :
    kv ∈ st.2 ∨ ∃ b, r.entityBatchAt fi.filePath = some b ∧ kv ∈ b := by
  unfold loadBatchPair at h
  split at h
  · exact Or.inl h
  · split at h
    · exact Or.inl h
    · rename_i b hb
      rcases mem_foldIndex _ _ h with h1 | h1
      · exact Or.inl h1
      · exact Or.inr ⟨b, hb, h1⟩

theorem foldl_loadBatchPair_mem_snd (r : FileReader) :
    ∀ (files : List EntityPathDataFileInfo)
      (st : List (String × EntityPathBatch) × List (String × EntityPath))
      (kv : String × EntityPath),
      kv ∈ (files.foldl (loadBatchPair r) st).2 →
      kv ∈ st.2 ∨ ∃ fi ∈ files, ∃ b, r.entityBatchAt fi.filePath = some b ∧ kv ∈ b := by
  intro files
  induction files with
  | nil => intro st kv h; exact Or.inl h
  | cons fi files ih =>
    intro st kv h
    rw [List.foldl_cons] at h
    rcases ih _ kv h with h1 | h1
    · rcases mem_loadBatchPair_snd r st fi h1 with h2 | h2
      · exact Or.inl h2
      · obtain ⟨b, hb, hkv⟩ := h2
        exact Or.inr ⟨fi, List.mem_cons_self _ _, b, hb, hkv⟩
    · obtain ⟨fj, hmem, b, hb, hkv⟩ := h1
      exact Or.inr ⟨fj, List.mem_cons_of_mem _ hmem, b, hb, hkv⟩

theorem mem_statSetStep {kv : String × StatisticsFile} (r : FileReader)
    (st : List (String × StatisticsFile)) (fi : StatisticsDataFileInfo)
    (h : kv ∈ statSetStep r st fi) :
    kv ∈ st ∨ (kv.1 = fi.filePath ∧ r.statisticsAt fi.filePath = some kv.2) := by
  unfold statSetStep at h
  split at h
  · exact Or.inl h
  · split at h
    · exact Or.inl h
    · rename_i f hf
      rcases mem_mapSet h with h1 | h1
      · right
        constructor
        · rw [h1]
        · rw [h1]
          exact hf
      · exact Or.inl h1

theorem foldl_statSetStep_mem (r : FileReader) :
    ∀ (files : List StatisticsDataFileInfo) (st : List (String × StatisticsFile))
      (kv : String × StatisticsFile),
      kv ∈ files.foldl (statSetStep r) st →
      kv ∈ st ∨ ∃ fi ∈ files, kv.1 = fi.filePath ∧ r.statisticsAt fi.filePath = some kv.2 := by
  intro files
  induction files with
  | nil => intro st kv h; exact Or.inl h
  | cons fi files ih =>
    intro st kv h
    rw [List.foldl_cons] at h
    rcases ih _ kv h with h1 | h1
    · rcases mem_statSetStep r st fi h1 with h2 | h2
      · exact Or.inl h2
      · exact Or.inr ⟨fi, List.mem_cons_self _ _, h2⟩
    · obtain ⟨fj, hmem, hkv⟩ := h1
      exact Or.inr ⟨fj, List.mem_cons_of_mem _ hmem, hkv⟩

theorem loadBatchPair_inv (r : FileReader)
    (st : List (String × EntityPathBatch) × List (String × EntityPath))
    (fi : EntityPathDataFileInfo) (h : st.2 = unionOfBatches st.1) :
    (loadBatchPair r st fi).2 = unionOfBatches (loadBatchPair r st fi).1 := by
  unfold loadBatchPair
  split
  · exact h
  · rename_i hhas
    cases hE : r.entityBatchAt fi.filePath with
    | none => exact h
    | some b =>
      dsimp only
      rw [mapSet_of_not_has b (Bool.not_eq_true _ ▸ hhas), unionOfBatches_append_single, h]

theorem foldl_loadBatchPair_inv (r : FileReader) :
    ∀ (files : List EntityPathDataFileInfo)
      (st : List (String × EntityPathBatch) × List (String × EntityPath)),
      st.2 = unionOfBatches st.1 →
      (files.foldl (loadBatchPair r) st).2 =
        unionOfBatches (files.foldl (loadBatchPair r) st).1 := by
  intro files
  induction files with
  | nil => intro st h; exact h
  | cons fi files ih =>
    intro st h
    rw [List.foldl_cons]
    exact ih _ (loadBatchPair_inv r st fi h)

theorem findInBatches_mem {p : EntityPath} (entityId : String) :
    ∀ (bs : List (String × EntityPathBatch)), findInBatches entityId bs = some p →
      ∃ kb ∈ bs, (entityId, p) ∈ kb.2 := by
  intro bs
  induction bs with
  | nil => intro h; simp [findInBatches] at h
  | cons kb bs ih =>
    intro h
    simp only [findInBatches] at h
    split at h
    · rename_i q hq
      exact ⟨kb, List.mem_cons_self _ _, Option.some.inj h ▸ mapGet_mem hq⟩
    · obtain ⟨kb2, hmem, hkv⟩ := ih h
      exact ⟨kb2, List.mem_cons_of_mem _ hmem, hkv⟩

theorem getEntityPath_of_inv (s : AnimationData) (entityId : String)
    (h : s.entityPathsById = unionOfBatches s.loadedEntityPathBatches) :
    AnimationData.getEntityPath s entityId = (mapGet entityId s.entityPathsById, s) := by
  unfold AnimationData.getEntityPath
  cases hg : mapGet entityId s.entityPathsById with
  | some p => rfl
  | none =>
    cases hf : findInBatches entityId s.loadedEntityPathBatches with
    | none => rfl
    | some p =>
      exfalso
      obtain ⟨kb, hkb, hmem⟩ := findInBatches_mem entityId _ hf
      have hhas : mapHas entityId (unionOfBatches s.loadedEntityPathBatches) = true :=
        mapHas_unionOfBatches _ hkb hmem
      rw [← h] at hhas
      unfold mapHas at hhas
      rw [hg] at hhas
      simp at hhas

theorem reachable_inv (r : FileReader) :
    ∀ (s : AnimationData), Reachable r s →
      s.entityPathsById = unionOfBatches s.loadedEntityPathBatches := by
  intro s h
  induction h with
  | init => rfl
  | discover h ih =>
    rename_i s1
    rw [(initializeOrDiscoverReplications_caches r s1).2.1,
      (initializeOrDiscoverReplications_caches r s1).1]
    exact ih
  | activate id h ih =>
    rename_i s1
    cases hg : mapGet id s1.availableReplications with
    | none => rw [setActiveReplication_fail r s1 id hg]; exact ih
    | some m =>
      rw [setActiveReplication_success r s1 id m hg]
      exact foldl_loadBatchPair_inv r m.entityPathDataFiles ([], []) rfl
  | entityQuery eid h ih =>
    rename_i s1
    rw [getEntityPath_of_inv s1 eid ih]
    exact ih

theorem setActiveReplication_avail (r : FileReader) (s : AnimationData) (id : Int) :
    (AnimationData.setActiveReplication r s id).2.availableReplications =
      s.availableReplications := by
  cases hg : mapGet id s.availableReplications with
  | none => rw [setActiveReplication_fail r s id hg]
  | some m => rw [setActiveReplication_success r s id m hg]

/-! ### Claim theorems -/

/-- C1: for every loaded statistics cache and query, `getStatisticValueAtTime`
returns the linear interpolation over the first adjacent bracketing pair of
the matched file's series, and returns absence exactly when no statistic
matches, the series has fewer than two points, or no adjacent pair brackets
`t`; on the series `[(0,10),(10,20)]`, `t = 5` yields `15` while `t = -1`
and `t = 11` yield absence. -/
theorem getStatisticValueAtTime_spec :
    (∀ (s : AnimationData) (type componentId metricName : String) (t : ℚ),
      (AnimationData.getStatisticValueAtTime s type componentId metricName t = none ↔
        AnimationData.getStatistic s type componentId metricName = none ∨
        ∃ f, AnimationData.getStatistic s type componentId metricName = some f ∧
          ∀ pq ∈ adjacentPairs f.timeSeries, ¬(pq.1.time ≤ t ∧ pq.2.time ≥ t)) ∧
      (∀ f, AnimationData.getStatistic s type componentId metricName = some f →
        f.timeSeries.length < 2 →
        AnimationData.getStatisticValueAtTime s type componentId metricName t = none) ∧
      (∀ f pre p q suf,
        AnimationData.getStatistic s type componentId metricName = some f →
        f.timeSeries = pre ++ p :: q :: suf →
        (∀ pq ∈ adjacentPairs (pre ++ [p]), ¬(pq.1.time ≤ t ∧ pq.2.time ≥ t)) →
        p.time ≤ t → q.time ≥ t →
        AnimationData.getStatisticValueAtTime s type componentId metricName t =
          some (p.value + (t - p.time) / (q.time - p.time) * (q.value - p.value)))) ∧
    AnimationData.getStatisticValueAtTime ex1State exType exComp exMetric 5 = some 15 ∧
    AnimationData.getStatisticValueAtTime ex1State exType exComp exMetric (-1) = none ∧
    AnimationData.getStatisticValueAtTime ex1State exType exComp exMetric 11 = none := by
  refine ⟨?_, ?_, by decide, by decide⟩
  · intro s ty cid mn t
    refine ⟨?_, ?_, ?_⟩
    · unfold AnimationData.getStatisticValueAtTime
      cases hg : AnimationData.getStatistic s ty cid mn with
      | none => simp
      | some f =>
        dsimp only
        rw [interpAt_eq_firstBracket]
        constructor
        · intro h
          right
          refine ⟨f, rfl, ?_⟩
          rw [← firstBracket_eq_none_iff]
          exact Option.map_eq_none'.mp h
        · intro h
          rcases h with h | ⟨f2, hf2, hall⟩
          · exact Option.noConfusion h
          · obtain rfl : f = f2 := Option.some.inj hf2
            rw [Option.map_eq_none', firstBracket_eq_none_iff]
            exact hall
    · intro f hf hlen
      unfold AnimationData.getStatisticValueAtTime
      rw [hf]
      dsimp only
      rcases hts : f.timeSeries with _ | ⟨p, _ | ⟨q, rest⟩⟩
      · rfl
      · rfl
      · rw [hts] at hlen
        simp only [List.length_cons] at hlen
        omega
    · intro f pre p q suf hf hts hskip hp hq
      unfold AnimationData.getStatisticValueAtTime
      rw [hf]
      dsimp only
      rw [interpAt_eq_firstBracket, hts,
        firstBracket_append t pre p q suf hskip hp hq]
      rfl
  · norm_num [AnimationData.getStatisticValueAtTime, AnimationData.getStatistic,
      ex1State, demoStatFile, demoPoint0, demoPoint1, interpAt, exType, exComp,
      exMetric, exStatPath, AnimationData.new]

/-- C2: `setActiveReplication` with an unregistered id returns `false` and
leaves the whole state unchanged; with a registered id it records the id as
active, clears the batch cache, the entity index and the statistics cache,
reloads them from the manifest's file lists alone, leaves the registry and
the shared documents untouched, and returns `true`. -/
theorem setActiveReplication_contract :
    ∀ (r : FileReader) (s : AnimationData) (id : Int),
      (mapGet id s.availableReplications = none →
        AnimationData.setActiveReplication r s id = (false, s)) ∧
      (∀ m, mapGet id s.availableReplications = some m →
        AnimationData.setActiveReplication r s id =
          (true,
            { s with
              activeReplicationId := some id
              loadedEntityPathBatches :=
                (m.entityPathDataFiles.foldl (loadBatchPair r) ([], [])).1
              entityPathsById :=
                (m.entityPathDataFiles.foldl (loadBatchPair r) ([], [])).2
              loadedStatisticsFiles :=
                m.statisticsDataFiles.foldl (statSetStep r) [] })) :=
  fun r s id =>
    ⟨setActiveReplication_fail r s id,
     fun m h => setActiveReplication_success r s id m h⟩

/-- C3: after activating `r1` and then `r2` (both registered, distinct),
every loaded entity id stems from a batch file of `r2`'s manifest and every
cached statistics entry stems from a statistics file of `r2`'s manifest —
nothing loaded for `r1` survives. -/
theorem activation_no_leakage :
    ∀ (r : FileReader) (s : AnimationData) (r1 r2 : Int)
      (m1 m2 : ReplicationManifestData),
      r1 ≠ r2 →
      mapGet r1 s.availableReplications = some m1 →
      mapGet r2 s.availableReplications = some m2 →
      (AnimationData.setActiveReplication r s r1).1 = true ∧
      (AnimationData.setActiveReplication r
          (AnimationData.setActiveReplication r s r1).2 r2).1 = true ∧
      (∀ id ∈ AnimationData.getLoadedEntityIds
          (AnimationData.setActiveReplication r
            (AnimationData.setActiveReplication r s r1).2 r2).2,
        ∃ fi ∈ m2.entityPathDataFiles, ∃ b, r.entityBatchAt fi.filePath = some b ∧
          ∃ p, (id, p) ∈ b) ∧
      (∀ kv ∈ (AnimationData.setActiveReplication r
          (AnimationData.setActiveReplication r s r1).2 r2).2.loadedStatisticsFiles,
        ∃ fi ∈ m2.statisticsDataFiles, kv.1 = fi.filePath ∧
          r.statisticsAt fi.filePath = some kv.2) := by
  intro r s r1 r2 m1 m2 hne h1 h2
  have h2' : mapGet r2
      (AnimationData.setActiveReplication r s r1).2.availableReplications = some m2 := by
    rw [setActiveReplication_avail]
    exact h2
  refine ⟨?_, ?_, ?_, ?_⟩
  · rw [setActiveReplication_success r s r1 m1 h1]
  · rw [setActiveReplication_success r _ r2 m2 h2']
  · intro id hid
    rw [setActiveReplication_success r _ r2 m2 h2'] at hid
    unfold AnimationData.getLoadedEntityIds at hid
    dsimp only at hid
    obtain ⟨kv, hkv, hfst⟩ := List.mem_map.mp hid
    rcases foldl_loadBatchPair_mem_snd r _ _ kv hkv with h3 | h3
    · simp at h3
    · obtain ⟨fi, hfi, b, hb, hkvb⟩ := h3
      refine ⟨fi, hfi, b, hb, kv.2, ?_⟩
      rw [← hfst]
      exact hkvb
  · intro kv hkv
    rw [setActiveReplication_success r _ r2 m2 h2'] at hkv
    dsimp only at hkv
    rcases foldl_statSetStep_mem r _ _ kv hkv with h3 | h3
    · simp at h3
    · exact h3

/-- C4: in every state reachable through the public operations,
`getEntityPath` returns exactly the pure lookup in the flat entity index
and leaves the state unchanged — the fallback scan over loaded batches
never contributes, because loading a batch indexes every entity in it. -/
theorem getEntityPath_pure_lookup :
    ∀ (r : FileReader) (s : AnimationData), Reachable r s →
      ∀ entityId, AnimationData.getEntityPath s entityId =
        (mapGet entityId s.entityPathsById, s) :=
  fun r s h entityId => getEntityPath_of_inv s entityId (reachable_inv r s h)

/-- C5 (amended): once set, the shared model layout and the shared visual
config are never overwritten by any later discovery pass; while still unset
each is determined by the first successful fetch among the layout/config
paths declared, in discovery order, by the manifests the pass parses —
a declared path whose fetch fails leaves the document unset, so a later
manifest may supply it. -/
theorem shared_docs_first_wins :
    ∀ (r : FileReader) (s : AnimationData),
      (∀ v, s.modelLayout = some v →
        (AnimationData.initializeOrDiscoverReplications r s).modelLayout = some v) ∧
      (∀ v, s.sharedVisualConfig = some v →
        (AnimationData.initializeOrDiscoverReplications r s).sharedVisualConfig = some v) ∧
      (s.modelLayout = none →
        (AnimationData.initializeOrDiscoverReplications r s).modelLayout =
          match r.listDirectoryContents ("replications") with
          | none => none
          | some items => firstSome ((layoutCandidatePaths r items).map r.layoutAt)) ∧
      (s.sharedVisualConfig = none →
        (AnimationData.initializeOrDiscoverReplications r s).sharedVisualConfig =
          match r.listDirectoryContents ("replications") with
          | none => none
          | some items =>
            firstSome ((visualConfigCandidatePaths r items).map r.visualConfigAt)) := by
  intro r s
  refine ⟨?_, ?_, ?_, ?_⟩ <;> unfold AnimationData.initializeOrDiscoverReplications
  · intro v hv
    cases r.listDirectoryContents ("replications") with
    | none => exact hv
    | some items => exact foldl_discoverStep_layout_some r items s hv
  · intro v hv
    cases r.listDirectoryContents ("replications") with
    | none => exact hv
    | some items => exact foldl_discoverStep_config_some r items s hv
  · intro h
    cases r.listDirectoryContents ("replications") with
    | none => exact h
    | some items => exact foldl_discoverStep_layout_none r items s h
  · intro h
    cases r.listDirectoryContents ("replications") with
    | none => exact h
    | some items => exact foldl_discoverStep_config_none r items s h

/-- C5 (counterexample): the original claim says the shared model layout is
fetched at most once, from the first discovered manifest that declares a
path while the layout is unset.  Here the first manifest (`rep_001`)
declares `layoutA.json`, whose fetch fails, yet discovery ends with the
layout set to the document at the second manifest's path `layoutB.json` —
a second fetch from a later manifest. -/
theorem shared_docs_single_fetch_refuted :
    AnimationData.new.modelLayout = none ∧
    cexReader.manifestAt (manifestPathFor ("rep_001")) = some cexM1 ∧
    cexM1.metadata.modelLayoutPath = "layoutA.json" ∧
    cexReader.layoutAt ("layoutA.json") = none ∧
    cexReader.manifestAt (manifestPathFor ("rep_002")) = some cexM2 ∧
    cexM2.metadata.modelLayoutPath = "layoutB.json" ∧
    (AnimationData.initializeOrDiscoverReplications cexReader AnimationData.new).modelLayout
      = some cexLayoutB ∧
    (AnimationData.initializeOrDiscoverReplications cexReader AnimationData.new).modelLayout
      ≠ cexReader.layoutAt (cexM1.metadata.modelLayoutPath) := by
  decide

/-- C6: discovery registers a manifest exactly through listing entries that
are directories named with the `rep_` prefix, reading
`replications/<name>/animation_manifest_<name>.json`; every entry that is
not a directory, lacks the prefix, or whose manifest fails to read or parse
contributes nothing, while every well-formed entry is registered no matter
what other entries are present; an unlistable directory makes discovery a
no-op. -/
theorem discovery_skips_bad_entries :
    ∀ (r : FileReader) (s : AnimationData),
      (r.listDirectoryContents ("replications") = none →
        AnimationData.initializeOrDiscoverReplications r s = s) ∧
      (∀ items, r.listDirectoryContents ("replications") = some items →
        (∀ kv ∈ (AnimationData.initializeOrDiscoverReplications r s).availableReplications,
          kv ∈ s.availableReplications ∨
            ∃ item ∈ items, item.isDirectory = true ∧
              strStartsWith item.name ("rep_") = true ∧
              r.manifestAt (manifestPathFor item.name) = some kv.2 ∧
              kv.1 = kv.2.metadata.replication) ∧
        (∀ item ∈ items, item.isDirectory = true →
          strStartsWith item.name ("rep_") = true →
          ∀ m, r.manifestAt (manifestPathFor item.name) = some m →
            mapHas m.metadata.replication
              (AnimationData.initializeOrDiscoverReplications r s).availableReplications
              = true)) := by
  intro r s
  constructor
  · intro h
    unfold AnimationData.initializeOrDiscoverReplications
    rw [h]
  · intro items hl
    unfold AnimationData.initializeOrDiscoverReplications
    rw [hl]
    exact ⟨fun kv hkv => foldl_discoverStep_avail_mem r items s kv hkv,
      fun item hmem hdir hpre m hm =>
        foldl_discoverStep_registers r items s item hmem hdir hpre hm⟩

/-- C7: `getStatisticTimeSeriesForRange` returns exactly the points of the
matched series with `start ≤ time ≤ end`, in file order (a sublist of the
series), and returns the empty sequence — never absence — when no statistic
matches, when no point qualifies, or when `start > end`. -/
theorem getStatisticTimeSeriesForRange_spec :
    ∀ (s : AnimationData) (type componentId metricName : String) (start endTime : ℚ),
      (AnimationData.getStatistic s type componentId metricName = none →
        AnimationData.getStatisticTimeSeriesForRange s type componentId metricName
          start endTime = []) ∧
      (∀ f, AnimationData.getStatistic s type componentId metricName = some f →
        List.Sublist (AnimationData.getStatisticTimeSeriesForRange s type componentId
          metricName start endTime) f.timeSeries ∧
        (∀ p, p ∈ AnimationData.getStatisticTimeSeriesForRange s type componentId
            metricName start endTime ↔
          p ∈ f.timeSeries ∧ start ≤ p.time ∧ p.time ≤ endTime)) ∧
      (start > endTime →
        AnimationData.getStatisticTimeSeriesForRange s type componentId metricName
          start endTime = []) := by
  intro s ty cid mn start endTime
  refine ⟨?_, ?_, ?_⟩
  · intro h
    unfold AnimationData.getStatisticTimeSeriesForRange
    rw [h]
  · intro f hf
    unfold AnimationData.getStatisticTimeSeriesForRange
    rw [hf]
    dsimp only
    constructor
    · exact List.filter_sublist _
    · intro p
      rw [List.mem_filter]
      simp [ge_iff_le]
  · intro hgt
    unfold AnimationData.getStatisticTimeSeriesForRange
    cases hf : AnimationData.getStatistic s ty cid mn with
    | none => rfl
    | some f =>
      dsimp only
      rw [List.filter_eq_nil_iff]
      intro p hp
      simp only [Bool.and_eq_true, decide_eq_true_eq, ge_iff_le, not_and]
      intro h1 h2
      linarith

/-- C8: with a deterministic Content Accessor, activating a registered id
twice in a row leaves exactly the same batch cache, entity index and
statistics cache as activating it once — re-activation clears and
re-fetches everything, so the result does not depend on how often the id
was activated. -/
theorem setActiveReplication_idempotent :
    ∀ (r : FileReader) (s : AnimationData) (id : Int) (m : ReplicationManifestData),
      mapGet id s.availableReplications = some m →
      (AnimationData.setActiveReplication r
          (AnimationData.setActiveReplication r s id).2 id).2.loadedEntityPathBatches =
        (AnimationData.setActiveReplication r s id).2.loadedEntityPathBatches ∧
      (AnimationData.setActiveReplication r
          (AnimationData.setActiveReplication r s id).2 id).2.entityPathsById =
        (AnimationData.setActiveReplication r s id).2.entityPathsById ∧
      (AnimationData.setActiveReplication r
          (AnimationData.setActiveReplication r s id).2 id).2.loadedStatisticsFiles =
        (AnimationData.setActiveReplication r s id).2.loadedStatisticsFiles := by
  intro r s id m h
  have h2 : mapGet id
      (AnimationData.setActiveReplication r s id).2.availableReplications = some m := by
    rw [setActiveReplication_avail]
    exact h
  rw [setActiveReplication_success r (AnimationData.setActiveReplication r s id).2 id m h2,
    setActiveReplication_success r s id m h]
  exact ⟨rfl, rfl, rfl⟩

/-- C9 (amended): at the exact timestamp of a sample of a strictly
increasing series with at least two points, `getStatisticValueAtTime`
returns exactly that sample's value; the bracketing pair the loop selects
is the pair starting at the sample (interpolation ratio `0`) only for the
first sample — for every later sample it is the pair ending at the sample,
with interpolation ratio `1`. -/
theorem exact_timestamp_value_amended :
    ∀ (s : AnimationData) (type componentId metricName : String) (f : StatisticsFile),
      AnimationData.getStatistic s type componentId metricName = some f →
      f.timeSeries.Pairwise (fun a b => a.time < b.time) →
      (∀ a b suf, f.timeSeries = a :: b :: suf →
        AnimationData.getStatisticValueAtTime s type componentId metricName a.time =
          some a.value ∧
        firstBracket a.time f.timeSeries = some (a, b) ∧
        (a.time - a.time) / (b.time - a.time) = 0) ∧
      (∀ pre a b suf, f.timeSeries = pre ++ a :: b :: suf →
        AnimationData.getStatisticValueAtTime s type componentId metricName b.time =
          some b.value ∧
        firstBracket b.time f.timeSeries = some (a, b) ∧
        (b.time - a.time) / (b.time - a.time) = 1) := by
  intro s ty cid mn f hf hinc
  constructor
  · intro a b suf hts
    have hab : a.time < b.time := by
      rw [hts] at hinc
      exact (List.pairwise_cons.mp hinc).1 b (List.mem_cons_self _ _)
    have hfb : firstBracket a.time f.timeSeries = some (a, b) := by
      rw [hts]
      simp [firstBracket, le_refl, le_of_lt hab]
    refine ⟨?_, hfb, by simp⟩
    unfold AnimationData.getStatisticValueAtTime
    rw [hf]
    dsimp only
    rw [interpAt_eq_firstBracket, hfb]
    simp

  · intro pre a b suf hts
    have hsplit : a.time < b.time ∧ ∀ x ∈ pre, x.time < b.time := by
      rw [hts] at hinc
      rw [List.pairwise_append] at hinc
      obtain ⟨hpre, hrest, hcross⟩ := hinc
      refine ⟨(List.pairwise_cons.mp hrest).1 b (List.mem_cons_self _ _), ?_⟩
      intro x hx
      exact hcross x hx b (by simp)
    obtain ⟨hab, hallpre⟩ := hsplit
    have hskip : ∀ pq ∈ adjacentPairs (pre ++ [a]),
        ¬(pq.1.time ≤ b.time ∧ pq.2.time ≥ b.time) := by
      intro pq hmem hcontra
      have h2 : pq.2 ∈ pre ++ [a] := by
        have hzip := List.of_mem_zip hmem
        exact List.mem_of_mem_tail hzip.2
      have h3 : pq.2.time < b.time := by
        rcases List.mem_append.mp h2 with h4 | h4
        · exact hallpre _ h4
        · have : pq.2 = a := by simpa using h4
          rw [this]
          exact hab
      exact absurd hcontra.2 (not_le.mpr h3)
    have hfb : firstBracket b.time f.timeSeries = some (a, b) := by
      rw [hts]
      exact firstBracket_append b.time pre a b suf hskip (le_of_lt hab) (le_refl _)
    have hratio : (b.time - a.time) / (b.time - a.time) = 1 :=
      div_self (ne_of_gt (sub_pos.mpr hab))
    refine ⟨?_, hfb, hratio⟩
    unfold AnimationData.getStatisticValueAtTime
    rw [hf]
    dsimp only
    rw [interpAt_eq_firstBracket, hfb]
    have hval : a.value + (b.time - a.time) / (b.time - a.time) * (b.value - a.value) =
        b.value := by
      rw [hratio]
      ring
    simp only [Option.map_some']
    rw [hval]

/-- C9 (counterexample): the original claim asserts that the interpolation
ratio at an exact sample timestamp is `0`.  On the strictly increasing
series `[(0,10),(10,20),(20,30)]` and `t = 10` (the second sample), the
loop's first bracketing pair is `((0,10),(10,20))` — the pair ending at the
sample — whose ratio `(10-0)/(10-0)` is `1`, not `0`; the returned value is
still the sample's value `20`. -/
theorem exact_timestamp_ratio_refuted :
    AnimationData.getStatistic cex9State exType exComp exMetric = some cex9StatFile ∧
    cex9StatFile.timeSeries.Pairwise (fun a b => a.time < b.time) ∧
    demoPoint1 ∈ cex9StatFile.timeSeries ∧
    AnimationData.getStatisticValueAtTime cex9State exType exComp exMetric demoPoint1.time
      = some demoPoint1.value ∧
    firstBracket demoPoint1.time cex9StatFile.timeSeries = some (demoPoint0, demoPoint1) ∧
    ¬((demoPoint1.time - demoPoint0.time) / (demoPoint1.time - demoPoint0.time) = 0) := by
  refine ⟨by decide, by decide, by decide, ?_, by decide, ?_⟩
  · norm_num [AnimationData.getStatisticValueAtTime, AnimationData.getStatistic,
      cex9State, cex9StatFile, demoStatFile, demoPoint0, demoPoint1, interpAt,
      exType, exComp, exMetric, exStatPath, AnimationData.new]
  · norm_num [demoPoint0, demoPoint1]

/-- C10: in every state reachable through the public operations, the flat
entity index equals the last-write-wins union, in load order, of the
entries of all batches held in the batch cache; activation clears both
together and every operation preserves the equality. -/
theorem entity_index_union_invariant :
    ∀ (r : FileReader) (s : AnimationData), Reachable r s →
      s.entityPathsById = unionOfBatches s.loadedEntityPathBatches :=
  reachable_inv

/-! ### Witnesses -/

/-- Witness for C1: the interpolation clause applied to the worked series
`[(0,10),(10,20)]` at `t = 5` produces `15`. -/
theorem getStatisticValueAtTime_spec_witness :
    AnimationData.getStatisticValueAtTime ex1State exType exComp exMetric 5 = some 15 := by
  have h := (getStatisticValueAtTime_spec.1 ex1State exType exComp exMetric 5).2.2
    demoStatFile [] demoPoint0 demoPoint1 [] (by decide) (by decide) (by decide)
    (by decide) (by decide)
  rw [h]
  norm_num [demoPoint0, demoPoint1]

/-- Witness for C2: activating the unregistered id 5 on a fresh instance
fails and changes nothing. -/
theorem setActiveReplication_contract_witness :
    AnimationData.setActiveReplication wReader AnimationData.new 5 =
      (false, AnimationData.new) :=
  (setActiveReplication_contract wReader AnimationData.new 5).1 rfl

/-- Witness for C3: both activations of the two-replication scenario
succeed. -/
theorem activation_no_leakage_witness :
    (AnimationData.setActiveReplication w3Reader w3State 1).1 = true ∧
    (AnimationData.setActiveReplication w3Reader
      (AnimationData.setActiveReplication w3Reader w3State 1).2 2).1 = true := by
  have h := activation_no_leakage w3Reader w3State 1 2 wManifest w3Manifest2
    (by decide) (by decide) (by decide)
  exact ⟨h.1, h.2.1⟩

/-- Witness for C4: on the freshly constructed (reachable) state the entity
query is the pure index lookup. -/
theorem getEntityPath_pure_lookup_witness :
    AnimationData.getEntityPath AnimationData.new ("e1") =
      (mapGet ("e1") AnimationData.new.entityPathsById, AnimationData.new) :=
  getEntityPath_pure_lookup wReader AnimationData.new Reachable.init ("e1")

/-- Witness for C5: a layout that is already set survives a discovery pass
unchanged. -/
theorem shared_docs_first_wins_witness :
    (AnimationData.initializeOrDiscoverReplications cexReader w5State).modelLayout =
      some cexLayoutB :=
  (shared_docs_first_wins cexReader w5State).1 cexLayoutB rfl

/-- Witness for C6: with a well-formed `rep_001` next to a `rep_002` whose
manifest is unreadable, replication 1 is registered. -/
theorem discovery_skips_bad_entries_witness :
    mapHas (1 : Int)
      (AnimationData.initializeOrDiscoverReplications w6Reader
        AnimationData.new).availableReplications = true := by
  have h := (discovery_skips_bad_entries w6Reader AnimationData.new).2 w6Items rfl
  exact h.2 { name := "rep_001", path := "replications/rep_001", isDirectory := true }
    (by decide) rfl (by decide) wManifest (by decide)

/-- Witness for C7: a query with `start > end` yields the empty sequence. -/
theorem getStatisticTimeSeriesForRange_spec_witness :
    AnimationData.getStatisticTimeSeriesForRange ex1State exType exComp exMetric 5 3 = [] :=
  (getStatisticTimeSeriesForRange_spec ex1State exType exComp exMetric 5 3).2.2
    (by norm_num)

/-- Witness for C8: activating replication 1 twice leaves the statistics
cache of a single activation. -/
theorem setActiveReplication_idempotent_witness :
    (AnimationData.setActiveReplication wReader
        (AnimationData.setActiveReplication wReader w8State 1).2 1).2.loadedStatisticsFiles =
      (AnimationData.setActiveReplication wReader w8State 1).2.loadedStatisticsFiles :=
  (setActiveReplication_idempotent wReader w8State 1 wManifest rfl).2.2

/-- Witness for C9: at the exact second sample timestamp of the worked
series the query returns that sample's value. -/
theorem exact_timestamp_value_amended_witness :
    AnimationData.getStatisticValueAtTime ex1State exType exComp exMetric demoPoint1.time
      = some demoPoint1.value := by
  have h := exact_timestamp_value_amended ex1State exType exComp exMetric demoStatFile
    (by decide) (by decide)
  exact (h.2 [] demoPoint0 demoPoint1 [] (by decide)).1

/-- Witness for C10: the invariant holds in the state reached by discovery
followed by activation of replication 1. -/
theorem entity_index_union_invariant_witness :
    (AnimationData.setActiveReplication wReader
        (AnimationData.initializeOrDiscoverReplications wReader AnimationData.new)
        1).2.entityPathsById =
      unionOfBatches (AnimationData.setActiveReplication wReader
        (AnimationData.initializeOrDiscoverReplications wReader AnimationData.new)
        1).2.loadedEntityPathBatches :=
  entity_index_union_invariant wReader _
    (Reachable.activate 1 (Reachable.discover Reachable.init))
